import Mathlib

/-! A shallow embedding of `ftserver.c`.

Bytes are natural numbers, a region of memory reachable from a `char *` is the
list of the bytes from the pointer to the end of the object it points into, and
every access that leaves the object yields no value (`none`, or
`Outcome.undefined` for a whole call).  The socket, the file system and the
directory are an explicit environment: the values the calls `send` and `recv`
hand back are queued in a `World`, which also records every call in a trace.
Console output (`printf`, `fprintf`) is not part of the model.
-/

namespace Ftserver

/-! ## C strings -/

/-- The function `strlen(s)`: the index of the first zero byte of the region, and no value
when the region holds no zero byte (the scan would leave the object). -/
def strlen : List Nat → Option Nat
  | [] => none
  | b :: bs => if b = 0 then some 0 else (strlen bs).map (· + 1)

/-- The C string a region holds: its bytes before the first zero byte. -/
def cstr (m : List Nat) : Option (List Nat) :=
  (strlen m).map (fun n => m.take n)

/-- The function `strcmp(a, b)`: the difference of the first pair of bytes that differ, `0`
when both strings end together. -/
def strcmp : List Nat → List Nat → Option Int
  | a :: as, b :: bs =>
    if a = b then (if a = 0 then some 0 else strcmp as bs)
    else some ((a : Int) - (b : Int))
  | _, _ => none

/-- The function `strcpy(dst, src)`: the string of `src` with its terminator written at the
start of `dst`; no value when the copy does not fit in `dst`. -/
def strcpy (dst src : List Nat) : Option (List Nat) :=
  match strlen src with
  | none => none
  | some n =>
    if n + 1 ≤ dst.length then some (src.take (n + 1) ++ dst.drop (n + 1))
    else none

/-- The function `strcat(dst, src)`: the string of `src` with its terminator written over
the terminator of `dst`; no value when it does not fit in `dst`. -/
def strcat (dst src : List Nat) : Option (List Nat) :=
  match strlen dst, strlen src with
  | some d, some n =>
    if d + n + 1 ≤ dst.length then
      some (dst.take d ++ (src.take (n + 1) ++ dst.drop (d + n + 1)))
    else none
  | _, _ => none

/-- The result of `memset(buf, 0, n)` on a buffer of `n` bytes. -/
def zeros (n : Nat) : List Nat := List.replicate n 0

/-- The buffer after `recv(fd, buf, n, 0)` delivered `msg`: at most `n` bytes
of the message overwrite the start of the buffer. -/
def recvInto (buf : List Nat) (n : Nat) (msg : List Nat) : List Nat :=
  msg.take n ++ buf.drop (msg.take n).length

/-- The value of an `int` that is assigned the unsigned quantity `n`. -/
def toInt32 (n : Nat) : Int :=
  ((n : Int) + 2147483648) % 4294967296 - 2147483648

/-- Decimal digits of `n`, most significant first, as ASCII bytes. -/
def digitsCore : Nat → Nat → List Nat → List Nat
  | 0, _, acc => acc
  | fuel + 1, n, acc =>
    if n / 10 = 0 then (48 + n % 10) :: acc
    else digitsCore fuel (n / 10) ((48 + n % 10) :: acc)

/-- Decimal text of a natural number. -/
def decimal (n : Nat) : List Nat := digitsCore (n + 1) n []

/-- The text `sprintf(buf, "%d", z)` produces, without its terminator. -/
def sprintf_d (z : Int) : List Nat :=
  if z < 0 then 45 :: decimal z.natAbs else decimal z.natAbs

/-- The literal `"-l"` with its terminator. -/
def lit_l : List Nat := [45, 108, 0]

/-- The literal `"ACK"` with its terminator. -/
def lit_ACK : List Nat := [65, 67, 75, 0]

/-- The literal `"\n"` with its terminator. -/
def lit_newline : List Nat := [10, 0]

/-- The 15 bytes of `"INVALID COMMAND"`. -/
def INVALID_COMMAND : List Nat :=
  [73, 78, 86, 65, 76, 73, 68, 32, 67, 79, 77, 77, 65, 78, 68]

/-- The 14 bytes of `"FILE NOT FOUND"`. -/
def FILE_NOT_FOUND : List Nat :=
  [70, 73, 76, 69, 32, 78, 79, 84, 32, 70, 79, 85, 78, 68]

/-! ## parse_command -/

/-- The function `parse_command(command, filename)`: the return value and the `filename`
buffer afterwards. -/
def parse_command (command filename : List Nat) : Option (Int × List Nat) :=
  match strlen command with
  | none => none
  | some len =>
    if len = 2 ∧ strcmp command lit_l = some 0 then some (1, filename)
    else if 3 < len ∧ command[0]? = some 45 ∧ command[1]? = some 103 then
      match strcpy filename (command.drop 3) with
      | none => none
      | some f => some (2, f)
    else some (0, filename)

/-! ## The environment -/

/-- One call observed at the program's boundary. -/
inductive Event where
  | send (fd : Int) (buf : List Nat) (ret : Int)
  | recv (fd : Int) (n : Nat) (bytes : List Nat)
  | connect_for_data (host port : List Nat)
  | close (fd : Int)
  deriving DecidableEq, Repr

/-- The bytes a `send` call put on connection `fd`: the first `ret` bytes of
its buffer. -/
def Event.wire (fd : Int) : Event → List Nat
  | .send fd1 buf ret => if fd1 = fd ∧ 0 ≤ ret then buf.take ret.toNat else []
  | _ => []

/-- All bytes put on connection `fd`, in order. -/
def wireBytes (fd : Int) (tr : List Event) : List Nat :=
  (tr.map (Event.wire fd)).flatten

/-- Whether an event is a call of `connect_for_data`. -/
def Event.isConnect : Event → Bool
  | .connect_for_data _ _ => true
  | _ => false

/-- The buffers of the `send` calls made on connection `fd`, in order. -/
def sendCalls (fd : Int) : List Event → List (List Nat)
  | [] => []
  | .send fd1 buf _ :: tr => if fd1 = fd then buf :: sendCalls fd tr else sendCalls fd tr
  | _ :: tr => sendCalls fd tr

/-- What the peer and the kernel will answer, and what has happened so far.
`sendQ` holds the results of the coming `send` calls (a negative entry is the
failure result `-1`, any other entry is capped at the requested length),
`recvQ` the bytes the coming `recv` calls deliver.  A call that finds its
queue empty never completes. -/
structure World where
  sendQ : List Int
  recvQ : List (List Nat)
  trace : List Event
  deriving DecidableEq, Repr

/-- How a call ends. -/
inductive Outcome where
  | returned (ret : Int)
  | undefined
  | blocked
  | exited (code : Int)
  deriving DecidableEq, Repr

/-- The value `send` returns for a queued result `r` and a request of `len`
bytes. -/
def sendRet (r : Int) (len : Nat) : Int :=
  if r < 0 then -1 else min r (len : Int)

/-- The call `send(fd, buf, len(buf), 0)`. -/
def sys_send (fd : Int) (buf : List Nat) (w : World) : Option (Int × World) :=
  match w.sendQ with
  | [] => none
  | r :: q =>
    some (sendRet r buf.length,
      { w with sendQ := q, trace := w.trace ++ [Event.send fd buf (sendRet r buf.length)] })

/-- The call `recv(fd, buf, n, 0)`: the buffer afterwards. -/
def sys_recv (fd : Int) (buf : List Nat) (n : Nat) (w : World) :
    Option (List Nat × World) :=
  match w.recvQ with
  | [] => none
  | m :: q =>
    some (recvInto buf n m,
      { w with recvQ := q, trace := w.trace ++ [Event.recv fd n (m.take n)] })

/-- The call `close(fd)`. -/
def sys_close (fd : Int) (w : World) : World :=
  { w with trace := w.trace ++ [Event.close fd] }

/-- One address `getaddrinfo` returns: what `socket` and `connect` answer for
it. -/
structure AddrInfo where
  socket : Int
  connect : Int
  deriving DecidableEq, Repr

/-- The parts of the machine the program reads but does not control. -/
structure Env where
  /-- The call `fopen(name, "r")` followed by reading the whole file. -/
  fopen : List Nat → Option (List Nat)
  /-- The result of `getcwd`. -/
  getcwd : Option (List Nat)
  /-- The call `opendir` and the names the successive `readdir` calls return. -/
  opendir : List Nat → Option (List (List Nat))
  /-- The call `getaddrinfo(host, port, ...)`. -/
  getaddrinfo : List Nat → List Nat → Option (List AddrInfo)
  /-- The four bytes the array `ack` of `send_data` holds before it is
  written. -/
  ack0 : Nat
  ack1 : Nat
  ack2 : Nat
  ack3 : Nat
  /-- The value the variable `chars_read` holds before it is written. -/
  chars_read : Int
  /-- Byte `i` of the array `filename` of `control_connection` before it is
  written. -/
  filename : Nat → Nat

/-- An environment with no files, no directory and no resolvable address,
in which every array and variable that is read before it is written holds
zero. -/
def zeroEnv : Env :=
  { fopen := fun _ => none, getcwd := none, opendir := fun _ => none,
    getaddrinfo := fun _ _ => none, ack0 := 0, ack1 := 0, ack2 := 0, ack3 := 0,
    chars_read := 0, filename := fun _ => 0 }

/-- The environment `zeroEnv` with the byte 1 in `ack[3]`. -/
def staleAckEnv : Env := { zeroEnv with ack3 := 1 }

/-- A directory of 512 entries: `.`, `..`, and the names of 1 to 255 letters
`a` and of 1 to 255 letters `b`.  With one separator each the names take
65795 bytes. -/
def longListing : List (List Nat) :=
  [[46], [46, 46]] ++
    ((List.range 255).map (fun i => List.replicate (i + 1) 97) ++
     (List.range 255).map (fun i => List.replicate (i + 1) 98))

/-- The environment `zeroEnv` with the working directory `/` holding
`longListing`. -/
def longDirEnv : Env :=
  { zeroEnv with getcwd := some [47], opendir := fun _ => some longListing }

/-- The bytes the loop of `send_directory_contents` appends for `names`: each
name followed by a newline. -/
def listingBytes (names : List (List Nat)) : List Nat :=
  (names.map (fun n => n ++ [10])).flatten

/-- The loop `while(sent < length) sent += send(socket_fd, data, length, 0);`
of `send_data`, followed by `return 1`.  Every call passes the pointer `data`
itself and the full `length`. -/
def send_loop (socket_fd : Int) (data : List Nat) (length : Int) :
    List Int → Int → List Event → Outcome × List Int × List Event
  | [], sent, tr =>
    if sent < length then (Outcome.blocked, [], tr) else (Outcome.returned 1, [], tr)
  | r :: q, sent, tr =>
    if sent < length then
      let buf := data.take length.toNat
      let ret := sendRet r buf.length
      let tr1 := tr ++ [Event.send socket_fd buf ret]
      if sent + ret < -2147483648 ∨ 2147483647 < sent + ret then (Outcome.undefined, q, tr1)
      else send_loop socket_fd data length q (sent + ret) tr1
    else (Outcome.returned 1, r :: q, tr)

/-- The function `send_data(data, socket_fd)`: the header, the reply, the
payload loop. -/
def send_data (env : Env) (data : List Nat) (socket_fd : Int) (w : World) :
    Outcome × World :=
  match strlen data with
  | none => (Outcome.undefined, w)
  | some n =>
    let length := toInt32 n
    let num_bytes := sprintf_d length
    if 11 < num_bytes.length + 1 then (Outcome.undefined, w)
    else
      match sys_send socket_fd num_bytes w with
      | none => (Outcome.blocked, w)
      | some (_, w1) =>
        match sys_recv socket_fd [env.ack0, env.ack1, env.ack2, env.ack3] 4 w1 with
        | none => (Outcome.blocked, w1)
        | some (ack, w2) =>
          if strcmp ack lit_ACK ≠ some 0 then (Outcome.returned 0, w2)
          else
            match send_loop socket_fd data length w2.sendQ 0 w2.trace with
            | (o, q, tr) => (o, { w2 with sendQ := q, trace := tr })

/-! ## send_file_contents -/

/-- The function `send_file_contents(filename, socket_fd)`. -/
def send_file_contents (env : Env) (filename : List Nat) (socket_fd : Int)
    (w : World) : Outcome × World :=
  match cstr filename with
  | none => (Outcome.undefined, w)
  | some name =>
    match env.fopen name with
    | none =>
      match sys_send socket_fd FILE_NOT_FOUND w with
      | none => (Outcome.blocked, w)
      | some (_, w1) => (Outcome.returned 0, w1)
    | some file =>
      let file_size := toInt32 file.length
      -- `malloc(file_size)` with a negative size, and a buffer that the read
      -- loop never fills because `chars_read` started at `file_size` or more
      if file_size < 0 ∨ file_size ≤ env.chars_read then (Outcome.undefined, w)
      else
        -- one `fread` of the whole file ends the loop; the buffer has
        -- `file_size` bytes and no terminator
        let contents := file.take file_size.toNat
        match send_data env contents socket_fd w with
        | (Outcome.returned r, w1) =>
          if r = 0 then (Outcome.returned 0, w1) else (Outcome.returned 1, w1)
        | (o, w1) => (o, w1)

/-! ## send_directory_contents -/

/-- The loop `while(ep = readdir(dp))` of `send_directory_contents`: each name
and then a newline are appended to `dir_list` with `strcat`. -/
def readdir_loop : List (List Nat) → List Nat → Option (List Nat)
  | [], dir_list => some dir_list
  | d_name :: rest, dir_list =>
    match strcat dir_list (d_name ++ [0]) with
    | none => none
    | some d1 =>
      match strcat d1 lit_newline with
      | none => none
      | some d2 => readdir_loop rest d2

/-- The buffer `dir_list` that `send_directory_contents` hands to `send_data`
for the given directory entries: the loop, then
`dir_list[strlen(dir_list) - 1] = 0`. -/
def build_dir_list (entries : List (List Nat)) : Option (List Nat) :=
  match readdir_loop entries (zeros 65536) with
  | none => none
  | some dir_list =>
    match strlen dir_list with
    | none => none
    | some 0 => none
    | some (k + 1) => some (dir_list.set k 0)

/-- The function `send_directory_contents(socket_fd)`. -/
def send_directory_contents (env : Env) (socket_fd : Int) (w : World) :
    Outcome × World :=
  match env.getcwd with
  | none => (Outcome.returned 0, w)
  | some cwd =>
    match env.opendir cwd with
    | none => (Outcome.returned 0, w)
    | some entries =>
      match build_dir_list entries with
      | none => (Outcome.undefined, w)
      | some dir_list =>
        match send_data env dir_list socket_fd w with
        | (Outcome.returned r, w1) =>
          if r = 0 then (Outcome.returned 0, w1) else (Outcome.returned 1, w1)
        | (o, w1) => (o, w1)

/-! ## connect_for_data -/

/-- The loop over the addresses in `connect_for_data` and the check of `p`
after it: the descriptor of the first address whose socket opens and
connects, or `-1`. -/
def connect_loop : List AddrInfo → World → Int × World
  | [], w => (-1, w)
  | p :: rest, w =>
    if p.socket = -1 then connect_loop rest w
    else if p.connect = -1 then connect_loop rest (sys_close p.socket w)
    else (p.socket, w)

/-- The function `connect_for_data(host, port)`. -/
def connect_for_data (env : Env) (host port : List Nat) (w : World) :
    Outcome × World :=
  match cstr host, cstr port with
  | some h, some p =>
    let w1 := { w with trace := w.trace ++ [Event.connect_for_data h p] }
    match env.getaddrinfo h p with
    | none => (Outcome.exited 1, w1)
    | some serverinfo =>
      match connect_loop serverinfo w1 with
      | (sockfd, w2) => (Outcome.returned sockfd, w2)
  | _, _ => (Outcome.undefined, w)

/-! ## control_connection -/

/-- The loop `while(address[i] != '|') i++;` of `control_connection`: the
index it stops at, and no value when it leaves the array. -/
def scan_separator : List Nat → Nat → Option Nat
  | [], _ => none
  | b :: bs, i => if b = 124 then some i else scan_separator bs (i + 1)

/-- The array `buffer` of `control_connection` after the command was
received. -/
def command_buffer (msg : List Nat) : List Nat :=
  recvInto (zeros 1024) 1023 msg

/-- The array `address` of `control_connection` after the address was
received. -/
def address_buffer (msg : List Nat) : List Nat :=
  recvInto (zeros 128) 127 msg

/-- The part of `control_connection` from the call of `connect_for_data` to
the end. -/
def transfer (env : Env) (command_type : Int) (filename address : List Nat)
    (i : Nat) (w : World) : Outcome × World :=
  match connect_for_data env address (address.drop (i + 1)) w with
  | (Outcome.returned data_fd, w4) =>
    if data_fd < 0 then (Outcome.returned 0, sys_close data_fd w4)
    else
      match (if command_type = 2 then send_file_contents env filename data_fd w4
             else send_directory_contents env data_fd w4) with
      | (Outcome.returned _, w5) => (Outcome.returned 1, sys_close data_fd w5)
      | (o, w5) => (o, w5)
  | (o, w4) => (o, w4)

/-- The function `control_connection(conn_fd)`.  The call `wait(3000)` touches neither the
connections nor the buffers. -/
def control_connection (env : Env) (conn_fd : Int) (w : World) : Outcome × World :=
  match sys_recv conn_fd (zeros 1024) 1023 w with
  | none => (Outcome.blocked, w)
  | some (buffer, w1) =>
    match parse_command buffer ((List.range 1024).map env.filename) with
    | none => (Outcome.undefined, w1)
    | some (command_type, filename) =>
      if command_type = 0 then
        match sys_send conn_fd INVALID_COMMAND w1 with
        | none => (Outcome.blocked, w1)
        | some (_, w2) => (Outcome.returned 0, w2)
      else
        match sys_send conn_fd (lit_ACK.take 3) w1 with
        | none => (Outcome.blocked, w1)
        | some (_, w2) =>
          match sys_recv conn_fd (zeros 128) 127 w2 with
          | none => (Outcome.blocked, w2)
          | some (address, w3) =>
            match scan_separator address 0 with
            | none => (Outcome.undefined, w3)
            | some i => transfer env command_type filename (address.set i 0) i w3


/-! ## Lemmas on C strings -/

theorem strlen_append_zero (c rest : List Nat) (hnul : ∀ b ∈ c, b ≠ 0) :
    strlen (c ++ 0 :: rest) = some c.length := by
  induction c with
  | nil => simp [strlen]
  | cons a as ih =>
    have ha : a ≠ 0 := hnul a (by simp)
    have ih1 := ih (fun b hb => hnul b (by simp [hb]))
    simp [strlen, ha, ih1]

theorem cstr_append_zero (c rest : List Nat) (hnul : ∀ b ∈ c, b ≠ 0) :
    cstr (c ++ 0 :: rest) = some c := by
  simp [cstr, strlen_append_zero c rest hnul]

theorem strcmp_lit_l (a b : Nat) (rest : List Nat) :
    strcmp (a :: b :: 0 :: rest) lit_l = some 0 ↔ a = 45 ∧ b = 108 := by
  by_cases ha : a = 45
  · by_cases hb : b = 108
    · subst ha; subst hb; simp [strcmp, lit_l]
    · subst ha; simp [strcmp, lit_l, hb]; omega
  · simp [strcmp, lit_l, ha]; omega

/-- The value of `parse_command` on a buffer that holds the string `cmd`. -/
theorem parse_command_eq (cmd rest fn : List Nat) (hnul : ∀ b ∈ cmd, b ≠ 0)
    (hlen : cmd.length ≤ 1023) (hfn : fn.length = 1024) :
    parse_command (cmd ++ 0 :: rest) fn =
      if cmd = [45, 108] then some (1, fn)
      else if 3 < cmd.length ∧ cmd[0]? = some 45 ∧ cmd[1]? = some 103 then
        some (2, cmd.drop 3 ++ 0 :: fn.drop (cmd.length - 2))
      else some (0, fn) := by
  unfold parse_command
  rw [strlen_append_zero cmd rest hnul]
  by_cases h2 : cmd.length = 2
  · obtain ⟨a, b, rfl⟩ := List.length_eq_two.mp h2
    have hcmp := strcmp_lit_l a b rest
    by_cases hab : a = 45 ∧ b = 108
    · obtain ⟨rfl, rfl⟩ := hab
      simp [hcmp]
    · have hne : ¬ ([a, b] = [45, 108]) := by
        intro h
        simp at h
        exact hab h
      have hcmp1 : ¬ (strcmp (a :: b :: 0 :: rest) lit_l = some 0) := by
        intro h
        exact hab (hcmp.mp h)
      simp [hcmp1, hne]
  · have hne : ¬ (cmd = [45, 108]) := by
      intro h
      apply h2
      rw [h]
      rfl
    simp only [h2, false_and, if_false, hne]
    by_cases h3 : 3 < cmd.length
    · have h0 : (cmd ++ 0 :: rest)[0]? = cmd[0]? := by
        rw [List.getElem?_append_left (by omega)]
      have h1 : (cmd ++ 0 :: rest)[1]? = cmd[1]? := by
        rw [List.getElem?_append_left (by omega)]
      rw [h0, h1]
      by_cases hg : cmd[0]? = some 45 ∧ cmd[1]? = some 103
      · have hdrop : (cmd ++ 0 :: rest).drop 3 = cmd.drop 3 ++ 0 :: rest := by
          rw [List.drop_append_of_le_length (by omega)]
        have hnul3 : ∀ b ∈ cmd.drop 3, b ≠ 0 := fun b hb => hnul b (List.mem_of_mem_drop hb)
        have hsl := strlen_append_zero (cmd.drop 3) rest hnul3
        have htake : (cmd.drop 3 ++ 0 :: rest).take ((cmd.drop 3).length + 1) = cmd.drop 3 ++ [0] := by
          rw [List.take_append_eq_append_take]
          simp
        have hk : cmd.length - 3 + 1 = cmd.length - 2 := by omega
        have hfit : cmd.length - 3 + 1 ≤ fn.length := by omega
        simp only [h3, hg, and_self, if_true, hdrop, strcpy, hsl, htake]
        have hfit2 : cmd.length ≤ fn.length + 2 := by omega
        simp [hfit2, hk]
      · simp [h3, hg]
    · simp [h3]

theorem zeros_length (n : Nat) : (zeros n).length = n :=
  List.length_replicate n 0

theorem command_buffer_eq (msg : List Nat) :
    command_buffer msg =
      msg.take 1023 ++ 0 :: zeros (1023 - (msg.take 1023).length) := by
  have hk : (msg.take 1023).length ≤ 1023 := by simp
  have hrep : ∀ k, k ≤ 1023 →
      (List.replicate 1024 0 : List Nat).drop k = 0 :: List.replicate (1023 - k) 0 := by
    intro k hk
    rw [List.drop_replicate]
    have : 1024 - k = (1023 - k) + 1 := by omega
    rw [this, List.replicate_succ]
  unfold command_buffer recvInto zeros
  rw [hrep _ hk]

theorem take_nul_free (msg : List Nat) (n : Nat) (hnul : ∀ b ∈ msg, b ≠ 0) :
    ∀ b ∈ msg.take n, b ≠ 0 :=
  fun b hb => hnul b (List.mem_of_mem_take hb)

/-- The value of `parse_command` on the buffer `control_connection` fills
from a message without zero bytes. -/
theorem parse_command_buffer (msg fn : List Nat) (hnul : ∀ b ∈ msg, b ≠ 0)
    (hfn : fn.length = 1024) :
    parse_command (command_buffer msg) fn =
      if msg.take 1023 = [45, 108] then some (1, fn)
      else if 3 < (msg.take 1023).length ∧ (msg.take 1023)[0]? = some 45
          ∧ (msg.take 1023)[1]? = some 103 then
        some (2, (msg.take 1023).drop 3 ++ 0 :: fn.drop ((msg.take 1023).length - 2))
      else some (0, fn) := by
  rw [command_buffer_eq]
  exact parse_command_eq _ _ fn (take_nul_free msg 1023 hnul) (by simp) hfn

theorem filename_length (env : Env) :
    ((List.range 1024).map env.filename).length = 1024 := by simp

/-! ## C1: parse_command -/

/-- C1: for every command string `cmd` without zero bytes and of at most 1023
bytes, held in a buffer before its terminator, `parse_command` returns; it
returns 1 exactly when `cmd` is the two bytes `-l`, 2 exactly when `cmd` is
longer than 3 bytes and starts with `-g`, and then the string it leaves in
`filename` is `cmd` from offset 3 on, which is not empty; it returns 0 for
every other `cmd`. -/
theorem parse_command_contract (cmd rest fn : List Nat) (hnul : ∀ b ∈ cmd, b ≠ 0)
    (hlen : cmd.length ≤ 1023) (hfn : fn.length = 1024) :
    ∃ r fn1, parse_command (cmd ++ 0 :: rest) fn = some (r, fn1) ∧
      (r = 1 ↔ cmd = [45, 108]) ∧
      (r = 2 ↔ (3 < cmd.length ∧ cmd[0]? = some 45 ∧ cmd[1]? = some 103)) ∧
      (r = 2 → cstr fn1 = some (cmd.drop 3) ∧ cmd.drop 3 ≠ []) ∧
      (r = 0 ↔ (cmd ≠ [45, 108] ∧
        ¬ (3 < cmd.length ∧ cmd[0]? = some 45 ∧ cmd[1]? = some 103))) := by
  have heq := parse_command_eq cmd rest fn hnul hlen hfn
  by_cases hl : cmd = [45, 108]
  · refine ⟨1, fn, ?_, ?_, ?_, ?_, ?_⟩
    · rw [heq, if_pos hl]
    · simp [hl]
    · subst hl; simp
    · intro h; exact absurd h (by decide)
    · simp [hl]
  · by_cases hg : 3 < cmd.length ∧ cmd[0]? = some 45 ∧ cmd[1]? = some 103
    · refine ⟨2, cmd.drop 3 ++ 0 :: fn.drop (cmd.length - 2), ?_, ?_, ?_, ?_, ?_⟩
      · rw [heq, if_neg hl, if_pos hg]
      · simp [hl]
      · simp [hg]
      · intro _
        refine ⟨cstr_append_zero _ _ (fun b hb => hnul b (List.mem_of_mem_drop hb)), ?_⟩
        intro h
        have := congrArg List.length h
        simp at this
        omega
      · simp [hg]
    · refine ⟨0, fn, ?_, ?_, ?_, ?_, ?_⟩
      · rw [heq, if_neg hl, if_neg hg]
      · simp [hl]
      · simp [hg]
      · intro h; exact absurd h (by decide)
      · simp [hl, hg]

/-- C1 at the command `-g a.txt`: the result is 2 and the file name is
`a.txt`. -/
theorem parse_command_contract_witness :
    (∀ b ∈ [45, 103, 32, 97, 46, 116, 120, 116], b ≠ 0) ∧
    [45, 103, 32, 97, 46, 116, 120, 116].length ≤ 1023 ∧
    (zeros 1024).length = 1024 ∧
    ∃ r fn1, parse_command ([45, 103, 32, 97, 46, 116, 120, 116] ++ 0 :: zeros 1015)
        (zeros 1024) = some (r, fn1) ∧
      (r = 1 ↔ [45, 103, 32, 97, 46, 116, 120, 116] = [45, 108]) ∧
      (r = 2 ↔ (3 < [45, 103, 32, 97, 46, 116, 120, 116].length ∧
        [45, 103, 32, 97, 46, 116, 120, 116][0]? = some 45 ∧
        [45, 103, 32, 97, 46, 116, 120, 116][1]? = some 103)) ∧
      (r = 2 → cstr fn1 = some ([45, 103, 32, 97, 46, 116, 120, 116].drop 3) ∧
        [45, 103, 32, 97, 46, 116, 120, 116].drop 3 ≠ []) ∧
      (r = 0 ↔ ([45, 103, 32, 97, 46, 116, 120, 116] ≠ [45, 108] ∧
        ¬ (3 < [45, 103, 32, 97, 46, 116, 120, 116].length ∧
          [45, 103, 32, 97, 46, 116, 120, 116][0]? = some 45 ∧
          [45, 103, 32, 97, 46, 116, 120, 116][1]? = some 103))) :=
  ⟨by decide, by decide, zeros_length 1024,
    parse_command_contract [45, 103, 32, 97, 46, 116, 120, 116] (zeros 1015) (zeros 1024)
      (by decide) (by decide) (zeros_length 1024)⟩

/-! ## C2: an invalid command is rejected -/

/-- C2: for every command message without zero bytes that is neither `-l`
nor `-g` followed by a non-empty suffix, `control_connection` makes exactly
two calls: the `recv` of the command and one `send` of the 15 bytes
`INVALID COMMAND` on the control connection; it returns 0, and
`connect_for_data` is not called.  When the `send` accepts the whole request,
the bytes on the connection are those 15 bytes. -/
theorem control_connection_rejects (env : Env) (conn_fd : Int) (msg : List Nat)
    (rq : List (List Nat)) (r : Int) (sq : List Int) (tr : List Event)
    (hnul : ∀ b ∈ msg, b ≠ 0) (hl : msg ≠ [45, 108])
    (hg : ¬ ∃ suffix, suffix ≠ [] ∧ msg = 45 :: 103 :: suffix) :
    control_connection env conn_fd { sendQ := r :: sq, recvQ := msg :: rq, trace := tr } =
      (Outcome.returned 0,
        { sendQ := sq, recvQ := rq,
          trace := tr ++ [Event.recv conn_fd 1023 (msg.take 1023),
            Event.send conn_fd INVALID_COMMAND (sendRet r 15)] }) ∧
    sendCalls conn_fd [Event.recv conn_fd 1023 (msg.take 1023),
      Event.send conn_fd INVALID_COMMAND (sendRet r 15)] = [INVALID_COMMAND] ∧
    List.countP Event.isConnect [Event.recv conn_fd 1023 (msg.take 1023),
      Event.send conn_fd INVALID_COMMAND (sendRet r 15)] = 0 ∧
    (15 ≤ r →
      wireBytes conn_fd [Event.recv conn_fd 1023 (msg.take 1023),
        Event.send conn_fd INVALID_COMMAND (sendRet r 15)] = INVALID_COMMAND) := by
  have hp := parse_command_buffer msg _ hnul (filename_length env)
  have h1 : ¬ (msg.take 1023 = [45, 108]) := by
    intro h
    have hlen := congrArg List.length h
    simp at hlen
    have hle : msg.length ≤ 1023 := by omega
    rw [List.take_of_length_le hle] at h
    exact hl h
  have h2 : ¬ (3 < (msg.take 1023).length ∧ (msg.take 1023)[0]? = some 45
      ∧ (msg.take 1023)[1]? = some 103) := by
    rintro ⟨h3, h0, h1⟩
    apply hg
    match msg, h3, h0, h1 with
    | a :: b :: c :: d :: t, _, h0, h1 =>
      simp at h0 h1
      subst h0; subst h1
      exact ⟨c :: d :: t, by simp, rfl⟩
    | [], h3, _, _ => simp at h3
    | [_], h3, _, _ => simp at h3
    | [_, _], h3, _, _ => simp at h3
    | [_, _, _], h3, _, _ => simp at h3
  rw [if_neg h1, if_neg h2] at hp
  refine ⟨?_, ?_, ?_, ?_⟩
  · unfold control_connection
    simp only [sys_recv]
    have hb : recvInto (zeros 1024) 1023 msg = command_buffer msg := rfl
    rw [hb, hp]
    simp [sys_send, INVALID_COMMAND]
  · simp [sendCalls]
  · simp [Event.isConnect]
  · intro hr
    have h15 : sendRet r 15 = 15 := by
      unfold sendRet
      have : ¬ r < 0 := by omega
      rw [if_neg this]
      omega
    rw [h15]
    simp [wireBytes, Event.wire, INVALID_COMMAND]

/-- C2 at the command `-x`. -/
theorem control_connection_rejects_witness :
    (∀ b ∈ [45, 120], b ≠ 0) ∧ [45, 120] ≠ [45, 108] ∧
    (¬ ∃ suffix, suffix ≠ [] ∧ [45, 120] = 45 :: 103 :: suffix) ∧
    (control_connection
        { fopen := fun _ => none, getcwd := none, opendir := fun _ => none,
          getaddrinfo := fun _ _ => none, ack0 := 0, ack1 := 0, ack2 := 0, ack3 := 0,
          chars_read := 0, filename := fun _ => 0 }
        3 { sendQ := 15 :: [], recvQ := [45, 120] :: [], trace := [] } =
      (Outcome.returned 0,
        { sendQ := [], recvQ := [],
          trace := [] ++ [Event.recv 3 1023 ([45, 120].take 1023),
            Event.send 3 INVALID_COMMAND (sendRet 15 15)] }) ∧
    sendCalls 3 [Event.recv 3 1023 ([45, 120].take 1023),
      Event.send 3 INVALID_COMMAND (sendRet 15 15)] = [INVALID_COMMAND] ∧
    List.countP Event.isConnect [Event.recv 3 1023 ([45, 120].take 1023),
      Event.send 3 INVALID_COMMAND (sendRet 15 15)] = 0 ∧
    (15 ≤ (15 : Int) →
      wireBytes 3 [Event.recv 3 1023 ([45, 120].take 1023),
        Event.send 3 INVALID_COMMAND (sendRet 15 15)] = INVALID_COMMAND)) :=
  ⟨by decide, by decide, by simp,
    control_connection_rejects _ 3 [45, 120] [] 15 [] [] (by decide) (by decide) (by simp)⟩

/-! ## C8: a file that cannot be opened -/

/-- C8: when the file named by `filename` cannot be opened,
`send_file_contents` makes exactly one call, the `send` of the 14 bytes
`FILE NOT FOUND` on the data connection, and returns 0: no header is sent and
no reply is read.  When that call accepts the whole request, the bytes on the
connection are those 14 bytes. -/
theorem send_file_contents_not_found (env : Env) (filename name : List Nat)
    (socket_fd r : Int) (sq : List Int) (rq : List (List Nat)) (tr : List Event)
    (hname : cstr filename = some name) (hopen : env.fopen name = none) :
    send_file_contents env filename socket_fd { sendQ := r :: sq, recvQ := rq, trace := tr } =
      (Outcome.returned 0,
        { sendQ := sq, recvQ := rq,
          trace := tr ++ [Event.send socket_fd FILE_NOT_FOUND (sendRet r 14)] }) ∧
    FILE_NOT_FOUND.length = 14 ∧
    (14 ≤ r →
      wireBytes socket_fd [Event.send socket_fd FILE_NOT_FOUND (sendRet r 14)] = FILE_NOT_FOUND) := by
  refine ⟨?_, rfl, ?_⟩
  · unfold send_file_contents
    rw [hname]
    simp only [hopen, sys_send]
    rfl
  · intro hr
    have h1 : sendRet r 14 = 14 := by
      unfold sendRet
      have : ¬ r < 0 := by omega
      rw [if_neg this]
      omega
    rw [h1]
    simp [wireBytes, Event.wire, FILE_NOT_FOUND]

/-- C8 at the file name `x` in an environment without files. -/
theorem send_file_contents_not_found_witness :
    cstr [120, 0] = some [120] ∧ zeroEnv.fopen [120] = none ∧
    (send_file_contents zeroEnv [120, 0] 5 { sendQ := 14 :: [], recvQ := [], trace := [] } =
      (Outcome.returned 0,
        { sendQ := [], recvQ := [],
          trace := [] ++ [Event.send 5 FILE_NOT_FOUND (sendRet 14 14)] }) ∧
    FILE_NOT_FOUND.length = 14 ∧
    (14 ≤ (14 : Int) →
      wireBytes 5 [Event.send 5 FILE_NOT_FOUND (sendRet 14 14)] = FILE_NOT_FOUND)) :=
  ⟨by decide, rfl,
    send_file_contents_not_found zeroEnv [120, 0] [120] 5 14 [] [] [] (by decide) rfl⟩

/-! ## C3: the payload loop under partial sends -/

/-- C3: the payload `ab` is acknowledged and each payload `send` accepts one
byte.  `send_data` returns 1 after two calls that both start at the first byte
of the buffer: the bytes on the connection after the header `2` are `aa`, not
the payload `ab`. -/
theorem send_data_resends_from_start :
    send_data zeroEnv [97, 98, 0] 4
        { sendQ := [1, 1, 1], recvQ := [[65, 67, 75]], trace := [] } =
      (Outcome.returned 1,
        { sendQ := [], recvQ := [],
          trace := [Event.send 4 [50] 1, Event.recv 4 4 [65, 67, 75],
            Event.send 4 [97, 98] 1, Event.send 4 [97, 98] 1] }) ∧
    wireBytes 4 [Event.send 4 [50] 1, Event.recv 4 4 [65, 67, 75],
      Event.send 4 [97, 98] 1, Event.send 4 [97, 98] 1] = [50] ++ [97, 97] ∧
    [97, 97] ≠ [97, 98] := by
  decide

/-! ## C5: the reply to the header -/

/-- C5: the reply is exactly the three bytes `ACK` and `ack[3]` held the byte 1
before the read.  `send_data` returns 0 and sends no payload byte, although
the reply is `ACK`; with zero in `ack[3]` the same reply is accepted. -/
theorem send_data_ack_depends_on_stale_byte :
    send_data staleAckEnv [97, 98, 0] 4
        { sendQ := [1, 2], recvQ := [[65, 67, 75]], trace := [] } =
      (Outcome.returned 0,
        { sendQ := [2], recvQ := [],
          trace := [Event.send 4 [50] 1, Event.recv 4 4 [65, 67, 75]] }) ∧
    send_data zeroEnv [97, 98, 0] 4
        { sendQ := [1, 2], recvQ := [[65, 67, 75]], trace := [] } =
      (Outcome.returned 1,
        { sendQ := [], recvQ := [],
          trace := [Event.send 4 [50] 1, Event.recv 4 4 [65, 67, 75],
            Event.send 4 [97, 98] 2] }) := by
  decide

/-! ## C6: failed sends -/

/-- C6: `send_data` returns 1 in a run whose first payload `send` fails with
`-1` (the loop goes on and the payload is then sent twice), and in a run whose
header `send` fails with `-1`. -/
theorem send_data_succeeds_after_failed_send :
    send_data zeroEnv [97, 98, 0] 4
        { sendQ := [1, -1, 2, 2], recvQ := [[65, 67, 75]], trace := [] } =
      (Outcome.returned 1,
        { sendQ := [], recvQ := [],
          trace := [Event.send 4 [50] 1, Event.recv 4 4 [65, 67, 75],
            Event.send 4 [97, 98] (-1), Event.send 4 [97, 98] 2,
            Event.send 4 [97, 98] 2] }) ∧
    send_data zeroEnv [97, 98, 0] 4
        { sendQ := [-1, 2], recvQ := [[65, 67, 75]], trace := [] } =
      (Outcome.returned 1,
        { sendQ := [], recvQ := [],
          trace := [Event.send 4 [50] (-1), Event.recv 4 4 [65, 67, 75],
            Event.send 4 [97, 98] 2] }) := by
  decide

/-! ## C7: an address without separator -/

/-- C7: the command is `-l` and the address message is `host` (no `|`).  The
128 bytes of `address` hold no `|`, so the scan for the separator leaves the
array: `control_connection` does not fail the session, its behaviour is
undefined from there. -/
theorem control_connection_scans_past_address :
    scan_separator (address_buffer [104, 111, 115, 116]) 0 = none ∧
    control_connection zeroEnv 3
        { sendQ := [3], recvQ := [[45, 108], [104, 111, 115, 116]], trace := [] } =
      (Outcome.undefined,
        { sendQ := [], recvQ := [],
          trace := [Event.recv 3 1023 [45, 108], Event.send 3 [65, 67, 75] 3,
            Event.recv 3 127 [104, 111, 115, 116]] }) := by
  decide

/-! ## C4: the length header -/

theorem listingBytes_length (names : List (List Nat)) :
    (listingBytes names).length = (names.map (fun n => n.length + 1)).sum := by
  induction names with
  | nil => rfl
  | cons a t ih =>
    simp only [listingBytes, List.map_cons, List.flatten_cons, List.length_append,
      List.sum_cons] at ih ⊢
    rw [ih]
    simp

theorem replicate_zero_cons (k : Nat) (hk : 1 ≤ k) :
    (List.replicate k 0 : List Nat) = 0 :: List.replicate (k - 1) 0 := by
  obtain ⟨j, rfl⟩ : ∃ j, k = j + 1 := ⟨k - 1, by omega⟩
  simp [List.replicate_succ]

theorem strlen_append_replicate (s : List Nat) (k : Nat) (hs : ∀ b ∈ s, b ≠ 0)
    (hk : 1 ≤ k) : strlen (s ++ List.replicate k 0) = some s.length := by
  rw [replicate_zero_cons k hk]
  exact strlen_append_zero s _ hs

/-- One `strcat` onto a buffer that holds the string `s` and `k` zero bytes
after it. -/
theorem strcat_eq (s name : List Nat) (k : Nat) (hs : ∀ b ∈ s, b ≠ 0)
    (hname : ∀ b ∈ name, b ≠ 0) (hk : 1 ≤ k) :
    strcat (s ++ List.replicate k 0) (name ++ [0]) =
      if name.length + 1 ≤ k then
        some ((s ++ name) ++ List.replicate (k - name.length) 0)
      else none := by
  unfold strcat
  rw [strlen_append_replicate s k hs hk, strlen_append_zero name [] hname]
  simp only [List.length_append, List.length_replicate]
  by_cases hfit : name.length + 1 ≤ k
  · have h1 : s.length + name.length + 1 ≤ s.length + k := by omega
    rw [if_pos h1, if_pos hfit]
    have ht : (s ++ List.replicate k 0).take s.length = s := by
      rw [List.take_append_eq_append_take]
      simp
    have ht2 : (name ++ [0]).take (name.length + 1) = name ++ [0] := by
      apply List.take_of_length_le
      simp
    have hd : (s ++ List.replicate k 0).drop (s.length + name.length + 1) =
        List.replicate (k - name.length - 1) 0 := by
      rw [List.drop_append_eq_append_drop]
      have hz : s.length + name.length + 1 - s.length = name.length + 1 := by omega
      rw [List.drop_of_length_le (by omega), hz, List.drop_replicate]
      simp
      omega
    rw [ht, ht2, hd, replicate_zero_cons (k - name.length) (by omega)]
    have : k - name.length - 1 = k - name.length - 1 := rfl
    simp
  · have h1 : ¬ (s.length + name.length + 1 ≤ s.length + k) := by omega
    rw [if_neg h1, if_neg hfit]

/-- The loop of `send_directory_contents` on a buffer that holds the string
`s` and `k` zero bytes after it: the names with their newlines are appended
when they leave room for the terminator, and the loop writes past the buffer
otherwise. -/
theorem readdir_loop_eq : ∀ (names : List (List Nat)) (s : List Nat) (k : Nat),
    (∀ n ∈ names, ∀ b ∈ n, b ≠ 0) → (∀ b ∈ s, b ≠ 0) → 1 ≤ k →
    readdir_loop names (s ++ List.replicate k 0) =
      if (listingBytes names).length + 1 ≤ k then
        some ((s ++ listingBytes names) ++ List.replicate (k - (listingBytes names).length) 0)
      else none := by
  intro names
  induction names with
  | nil =>
    intro s k _ _ hk
    simp [readdir_loop, listingBytes, hk]
  | cons name rest ih =>
    intro s k hnames hs hk
    have hname : ∀ b ∈ name, b ≠ 0 := hnames name (by simp)
    have hrest : ∀ n ∈ rest, ∀ b ∈ n, b ≠ 0 := fun n hn => hnames n (by simp [hn])
    have hcons : listingBytes (name :: rest) = (name ++ [10]) ++ listingBytes rest := by
      simp [listingBytes]
    have hlen : (listingBytes (name :: rest)).length =
        name.length + 1 + (listingBytes rest).length := by
      rw [hcons]
      simp only [List.length_append, List.length_singleton]
    unfold readdir_loop
    rw [strcat_eq s name k hs hname hk]
    by_cases h1 : name.length + 1 ≤ k
    · rw [if_pos h1]
      simp only []
      have hs1 : ∀ b ∈ s ++ name, b ≠ 0 := by
        intro b hb
        rcases List.mem_append.mp hb with h | h
        · exact hs b h
        · exact hname b h
      have hnl : lit_newline = [10] ++ [0] := rfl
      rw [hnl, strcat_eq (s ++ name) [10] (k - name.length) hs1 (by simp) (by omega)]
      by_cases h2 : [10].length + 1 ≤ k - name.length
      · rw [if_pos h2]
        simp only []
        have hs2 : ∀ b ∈ (s ++ name) ++ [10], b ≠ 0 := by
          intro b hb
          rcases List.mem_append.mp hb with h | h
          · exact hs1 b h
          · simp at h
            omega
        simp only [List.length_singleton] at h2
        rw [List.length_singleton, ih ((s ++ name) ++ [10]) (k - name.length - 1) hrest hs2 (by omega)]
        by_cases h3 : (listingBytes rest).length + 1 ≤ k - name.length - 1
        · have h4 : (listingBytes (name :: rest)).length + 1 ≤ k := by omega
          rw [if_pos h3, if_pos h4, hlen, hcons]
          have hk2 : k - name.length - 1 - (listingBytes rest).length =
              k - (name.length + 1 + (listingBytes rest).length) := by omega
          rw [hk2]
          simp
        · have h4 : ¬ ((listingBytes (name :: rest)).length + 1 ≤ k) := by omega
          rw [if_neg h3, if_neg h4]
      · have h4 : ¬ ((listingBytes (name :: rest)).length + 1 ≤ k) := by
          simp only [List.length_singleton] at h2
          omega
        rw [if_neg h2, if_neg h4]
    · have h4 : ¬ ((listingBytes (name :: rest)).length + 1 ≤ k) := by omega
      rw [if_neg h1, if_neg h4]

theorem listingBytes_nul_free (names : List (List Nat))
    (hnames : ∀ n ∈ names, ∀ b ∈ n, b ≠ 0) : ∀ b ∈ listingBytes names, b ≠ 0 := by
  intro b hb
  simp only [listingBytes, List.mem_flatten, List.mem_map] at hb
  obtain ⟨l, ⟨n, hn, rfl⟩, hbl⟩ := hb
  rcases List.mem_append.mp hbl with h | h
  · exact hnames n hn b h
  · simp at h
    omega

theorem listingBytes_eq_intercalate : ∀ (names : List (List Nat)), names ≠ [] →
    listingBytes names = [10].intercalate names ++ [10] := by
  intro names
  induction names with
  | nil => intro h; exact absurd rfl h
  | cons a t ih =>
    intro _
    cases t with
    | nil => simp [listingBytes, List.intercalate, List.intersperse]
    | cons b t =>
      have := ih (by simp)
      simp only [listingBytes, List.map_cons, List.flatten_cons, List.intercalate,
        List.intersperse] at this ⊢
      rw [this]
      simp

/-- The buffer `send_directory_contents` hands to `send_data` when the names
fit: the names joined by newlines, a terminator, and zero bytes. -/
theorem build_dir_list_eq (names : List (List Nat)) (hne : names ≠ [])
    (hnames : ∀ n ∈ names, ∀ b ∈ n, b ≠ 0)
    (hfit : (names.map (fun n => n.length + 1)).sum ≤ 65535) :
    build_dir_list names =
      some ([10].intercalate names ++
        0 :: List.replicate (65536 - (listingBytes names).length) 0) := by
  have hT := listingBytes_length names
  have hloop := readdir_loop_eq names [] 65536 hnames (by simp) (by omega)
  have hle : (listingBytes names).length + 1 ≤ 65536 := by omega
  rw [if_pos hle] at hloop
  simp only [List.nil_append] at hloop
  have hsl := strlen_append_replicate (listingBytes names)
    (65536 - (listingBytes names).length) (listingBytes_nul_free names hnames) (by omega)
  have hJ := listingBytes_eq_intercalate names hne
  have hJlen : (listingBytes names).length = ([10].intercalate names).length + 1 := by
    rw [hJ]
    simp
  unfold build_dir_list
  have hz : zeros 65536 = List.replicate 65536 0 := rfl
  rw [hz, hloop]
  simp only []
  rw [hsl, hJlen]
  simp only []
  rw [hJ, List.append_assoc, List.set_append_right _ _ (le_refl _)]
  simp

/-- The overrun of `dir_list`: when the names with their newlines and the
terminator take more than 65536 bytes, the loop writes past the array. -/
theorem build_dir_list_overrun (names : List (List Nat))
    (hnames : ∀ n ∈ names, ∀ b ∈ n, b ≠ 0)
    (hbig : 65535 < (names.map (fun n => n.length + 1)).sum) :
    build_dir_list names = none := by
  have hT := listingBytes_length names
  have hloop := readdir_loop_eq names [] 65536 hnames (by simp) (by omega)
  have hle : ¬ ((listingBytes names).length + 1 ≤ 65536) := by omega
  rw [if_neg hle] at hloop
  simp only [List.nil_append] at hloop
  unfold build_dir_list
  have hz : zeros 65536 = List.replicate 65536 0 := rfl
  rw [hz, hloop]

/-- The listing that fits: for every non-empty sequence of entry names free
of zero and newline bytes whose bytes, with one separator per name, number at
most 65535, `send_directory_contents` passes to `send_data` a buffer holding
the names joined by one newline in read order, with no newline after the last
name; split on newline it gives back exactly the names. -/
theorem send_directory_contents_payload (env : Env) (socket_fd : Int) (w : World)
    (cwd : List Nat) (names : List (List Nat)) (hne : names ≠ [])
    (hbytes : ∀ n ∈ names, ∀ b ∈ n, b ≠ 0 ∧ b ≠ 10)
    (hfit : (names.map (fun n => n.length + 1)).sum ≤ 65535)
    (hcwd : env.getcwd = some cwd) (hdir : env.opendir cwd = some names) :
    ∃ dir_list, build_dir_list names = some dir_list ∧
      cstr dir_list = some ([10].intercalate names) ∧
      ([10].intercalate names).splitOn 10 = names ∧
      send_directory_contents env socket_fd w =
        match send_data env dir_list socket_fd w with
        | (Outcome.returned r, w1) =>
          if r = 0 then (Outcome.returned 0, w1) else (Outcome.returned 1, w1)
        | (o, w1) => (o, w1) := by
  have hnul : ∀ n ∈ names, ∀ b ∈ n, b ≠ 0 := fun n hn b hb => (hbytes n hn b hb).1
  have hbuild := build_dir_list_eq names hne hnul hfit
  have hJ := listingBytes_eq_intercalate names hne
  have hInul : ∀ b ∈ [10].intercalate names, b ≠ 0 := by
    intro b hb
    apply listingBytes_nul_free names hnul b
    rw [hJ]
    exact List.mem_append_left _ hb
  refine ⟨_, hbuild, cstr_append_zero _ _ hInul, ?_, ?_⟩
  · apply List.splitOn_intercalate
    · intro l hl hmem
      exact (hbytes l hl 10 hmem).2 rfl
    · exact hne
  · unfold send_directory_contents
    simp only [hcwd, hdir, hbuild]

/-- The listing of the directory holding `.`, `..` and `a`. -/
theorem send_directory_contents_payload_witness :
    [[46], [46, 46], [97]] ≠ [] ∧
    (∀ n ∈ [[46], [46, 46], [97]], ∀ b ∈ n, b ≠ 0 ∧ b ≠ 10) ∧
    ([[46], [46, 46], [97]].map (fun n => n.length + 1)).sum ≤ 65535 ∧
    ∃ dir_list, build_dir_list [[46], [46, 46], [97]] = some dir_list ∧
      cstr dir_list = some ([10].intercalate [[46], [46, 46], [97]]) ∧
      ([10].intercalate [[46], [46, 46], [97]]).splitOn 10 = [[46], [46, 46], [97]] ∧
      send_directory_contents
          { zeroEnv with getcwd := some [47], opendir := fun _ => some [[46], [46, 46], [97]] }
          5 { sendQ := [], recvQ := [], trace := [] } =
        match send_data
          { zeroEnv with getcwd := some [47], opendir := fun _ => some [[46], [46, 46], [97]] }
          dir_list 5 { sendQ := [], recvQ := [], trace := [] } with
        | (Outcome.returned r, w1) =>
          if r = 0 then (Outcome.returned 0, w1) else (Outcome.returned 1, w1)
        | (o, w1) => (o, w1) :=
  ⟨by decide, by decide, by decide,
    send_directory_contents_payload _ 5 _ [47] [[46], [46, 46], [97]]
      (by decide) (by decide) (by decide) rfl rfl⟩

theorem send_directory_contents_undefined (env : Env) (socket_fd : Int) (w : World)
    (cwd : List Nat) (names : List (List Nat)) (hcwd : env.getcwd = some cwd)
    (hdir : env.opendir cwd = some names) (hb : build_dir_list names = none) :
    send_directory_contents env socket_fd w = (Outcome.undefined, w) := by
  unfold send_directory_contents
  simp only [hcwd, hdir, hb]

theorem longListing_nul_free : ∀ n ∈ longListing, ∀ b ∈ n, b ≠ 0 ∧ b ≠ 10 := by
  intro n hn b hb
  simp only [longListing, List.mem_append, List.mem_map, List.mem_cons,
    List.mem_singleton, List.not_mem_nil, or_false] at hn
  rcases hn with (h | h) | ⟨i, _, rfl⟩ | ⟨i, _, rfl⟩
  · subst h
    simp at hb
    omega
  · subst h
    simp at hb
    omega
  · have := (List.mem_replicate.mp hb).2
    omega
  · have := (List.mem_replicate.mp hb).2
    omega

theorem sum_range_add_two (n : Nat) :
    2 * ((List.range n).map (fun i => i + 2)).sum = n * (n + 3) := by
  induction n with
  | zero => rfl
  | succ n ih =>
    rw [List.range_succ, List.map_append, List.sum_append, Nat.mul_add, ih]
    simp only [List.map_cons, List.map_nil, List.sum_cons, List.sum_nil]
    ring

theorem longListing_size : (longListing.map (fun n => n.length + 1)).sum = 65795 := by
  simp only [longListing, List.map_append, List.map_map, List.sum_append]
  have h : ∀ c : Nat, ((fun n : List Nat => n.length + 1) ∘ fun i => List.replicate (i + 1) c) =
      fun i => i + 2 := by
    intro c
    funext i
    simp
  rw [h 97, h 98]
  have h2 := sum_range_add_two 255
  have h3 : ([[46], [46, 46]].map (fun n : List Nat => n.length + 1)).sum = 5 := rfl
  rw [h3]
  omega

/-- C10: `longListing` is a non-empty sequence of names free of zero and
newline bytes, and for it the loop of `send_directory_contents` writes past
the 65536 bytes of `dir_list` with `strcat`: the behaviour is undefined and no
buffer holding the joined names is handed to `send_data`. -/
theorem send_directory_contents_overruns_dir_list :
    longListing ≠ [] ∧ (∀ n ∈ longListing, ∀ b ∈ n, b ≠ 0 ∧ b ≠ 10) ∧
    build_dir_list longListing = none ∧
    send_directory_contents longDirEnv 5
        { sendQ := [5, 65794], recvQ := [[65, 67, 75]], trace := [] } =
      (Outcome.undefined, { sendQ := [5, 65794], recvQ := [[65, 67, 75]], trace := [] }) := by
  have hnul : ∀ n ∈ longListing, ∀ b ∈ n, b ≠ 0 :=
    fun n hn b hb => (longListing_nul_free n hn b hb).1
  have hsize := longListing_size
  have hb := build_dir_list_overrun longListing hnul (by omega)
  exact ⟨fun h => List.noConfusion h, longListing_nul_free, hb,
    send_directory_contents_undefined longDirEnv 5 _ [47] longListing rfl rfl hb⟩

/-! ## C9: the data connection is dialled once, after the acknowledgement -/

theorem sys_recv_trace (fd : Int) (buf : List Nat) (n : Nat) (w w1 : World)
    (b1 : List Nat) (h : sys_recv fd buf n w = some (b1, w1)) :
    ∃ m, w1.trace = w.trace ++ [Event.recv fd n m] := by
  unfold sys_recv at h
  split at h
  · cases h
  · simp only [Option.some.injEq, Prod.mk.injEq] at h
    obtain ⟨_, h2⟩ := h
    subst h2
    exact ⟨_, rfl⟩

end Ftserver
